import Mathlib

/-!
Shallow embedding of the TaskListManagement_OEL repository's gamification
core (the "Achievement Engine") and the HTTP route handlers that touch
tasks and the statistics aggregate.

Source files embedded:
* `frontend/app.js` — API-backed `TaskManager` class: `checkBadgeUnlocks`
  (lines 1281–1378), `addTask`, `editTask`, `deleteTask`, `toggleTask`.
* `backend/routes/stats.js` — `PATCH /api/stats`, `PATCH /api/stats/badge/:badgeId`.
* `backend/routes/tasks.js` — `POST /`, `PUT /:id`, `PATCH /:id`.
* `backend/models/Task.js`, `backend/models/UserStats.js` — schema validation
  and default badge set.

Modelling conventions:
* A JavaScript `Date` is `Option Int`: `some t` is a valid timestamp in
  milliseconds, `none` is an Invalid Date (whose `getTime()` is `NaN` and
  compares unequal to everything, including itself).
* Calendar days (local midnight after the `new Date(y, m, d)` normalization)
  are day numbers; a timestamp's day is its floor-division by 86 400 000.
  A concrete local-time offset of 0 is used, which is sound because every
  claim is invariant under shifting all timestamps and "today" together.
* A task's `completedAt` field is `Option JsDate`: `none` = absent/falsy
  (filtered out by `filter(t => t.completedAt)`), `some none` = a truthy but
  malformed date value, `some (some t)` = a valid timestamp.
* JS `x || 0` on an optional number is `Option.getD 0` (both send `0` to `0`).
-/

namespace TaskApp

/-- A JavaScript `Date` value: `none` models an Invalid Date. -/
abbrev JsDate := Option Int

/-- Milliseconds per day. -/
def msPerDay : Int := 86400000

/-- JavaScript whitespace as far as the repository's inputs go. -/
def isWs (c : Char) : Bool := c = ' ' || c = '\t' || c = '\n' || c = '\r'

/-- Drop leading whitespace characters. -/
def dropWs : List Char → List Char
  | [] => []
  | c :: cs => if isWs c then dropWs cs else c :: cs

/-- `String.prototype.trim`: strip whitespace from both ends. -/
def jsTrim (s : String) : String :=
  String.mk ((dropWs ((dropWs s.data).reverse)).reverse)

/-- `new Date(d.getFullYear(), d.getMonth(), d.getDate())`: strip the
time-of-day, keeping the calendar day; an Invalid Date stays invalid. -/
def normalizeDay : JsDate → Option Int
  | none => none
  | some t => some (t.fdiv msPerDay)

/-- A task as the frontend `TaskManager` holds it (after
`mapTaskFromBackend`): `completed` boolean, optional completion date,
optional point value. -/
structure FrontTask where
  id : String
  title : String
  completed : Bool
  completedAt : Option JsDate
  points : Option Int
  deriving Repr, DecidableEq

/-- A badge record: the fields the engine and the stats routes read and
write. `unlockedAt = none` is the unset (`null`/absent) state. -/
structure Badge where
  id : String
  unlocked : Bool
  unlockedAt : Option Int
  deriving Repr, DecidableEq

/-- The statistics fields the frontend `this.stats` object carries. -/
structure Stats where
  totalPoints : Int
  currentStreak : Int
  longestStreak : Int
  tasksCompleted : Int
  totalTasks : Int
  deriving Repr, DecidableEq

/-- The engine's mutable state: `this.stats` and `this.badges`. -/
structure EngineState where
  stats : Stats
  badges : List Badge
  deriving Repr, DecidableEq

/-- `completedTasks = this.tasks.filter(t => t.completed)` -/
def completedTasks (tasks : List FrontTask) : List FrontTask :=
  tasks.filter (·.completed)

/-- JS comparator `(a, b) => b.getTime() - a.getTime()` sorts valid dates
descending; with an Invalid Date the comparator returns `NaN` and the
resulting order is unspecified, so the model picks an arbitrary key for
`none`. Only membership in the result is used downstream. -/
def dateKey : Option Int → Int
  | none => 0
  | some d => d

/-- Descending order on normalized dates. -/
def dateDesc (a b : Option Int) : Bool := dateKey b ≤ dateKey a

/-- Insert into a descending-sorted list (one step of the sort). -/
def insertDesc (d : Option Int) : List (Option Int) → List (Option Int)
  | [] => [d]
  | x :: xs => if dateDesc d x then d :: x :: xs else x :: insertDesc d xs

/-- The model of `Array.prototype.sort` with the descending comparator: an
insertion sort. Any stable choice is sound here — only membership in the
sorted list is consumed downstream. -/
def sortDesc : List (Option Int) → List (Option Int)
  | [] => []
  | x :: xs => insertDesc x (sortDesc xs)

/-- `completionDates`: normalized completion days of completed tasks whose
`completedAt` is truthy, sorted descending (app.js:1295–1301). -/
def completionDatesOf (tasks : List FrontTask) : List (Option Int) :=
  sortDesc (((tasks.filter (·.completed)).filter (fun t => t.completedAt.isSome)).map
    (fun t => normalizeDay (t.completedAt.getD none)))

/-- One step of the duplicate-removal loop: push `d` unless an equal day is
already present (`uniqueDates.find(d => d.toDateString() === dateStr)`);
two Invalid Dates share the string `"Invalid Date"` and are merged. -/
def pushUnique (acc : List (Option Int)) (d : Option Int) : List (Option Int) :=
  if d ∈ acc then acc else acc ++ [d]

/-- `uniqueDates` (app.js:1304–1310). -/
def uniqueDatesOf (tasks : List FrontTask) : List (Option Int) :=
  (completionDatesOf tasks).foldl pushUnique []

/-- The streak loop (app.js:1313–1327): for `i = 0, 1, …` while `i` stays
below `uniqueDates.length`, count while day `today − i` is present, stop at
the first missing day. An Invalid Date (`none`) never equals a check date,
mirroring `NaN === x` being false. -/
def streakGo (dates : List (Option Int)) (today : Int) : Nat → Nat → Nat
  | _, 0 => 0
  | i, fuel + 1 =>
    if some (today - (i : Int)) ∈ dates then 1 + streakGo dates today (i + 1) fuel else 0

/-- `currentStreak` as computed by `checkBadgeUnlocks`. -/
def calcCurrentStreak (tasks : List FrontTask) (today : Int) : Nat :=
  streakGo (uniqueDatesOf tasks) today 0 (uniqueDatesOf tasks).length

/-- The guarded mutation `if (badge && !badge.unlocked && cond)
{ badge.unlocked = true; badge.unlockedAt = new Date(); }` applied to one
badge. -/
def unlockTransform (cond : Bool) (now : Int) (b : Badge) : Badge :=
  if !b.unlocked && cond then { b with unlocked := true, unlockedAt := some now } else b

/-- `this.badges.find(b => b.id === bid)` followed by the guarded mutation:
update the first badge with the given id, only when it is locked and the
condition holds. -/
def unlockFirstMatch : List Badge → String → Bool → Int → List Badge
  | [], _, _, _ => []
  | b :: rest, bid, cond, now =>
    if b.id == bid then unlockTransform cond now b :: rest
    else b :: unlockFirstMatch rest bid cond now

/-- `TaskManager.checkBadgeUnlocks` (app.js:1281–1378): recompute counts,
points, the streak, the longest streak, and run the four guarded badge
unlock rules in order. `today` is the current calendar day, `now` the
current timestamp used for `unlockedAt`. -/
def checkBadgeUnlocks (tasks : List FrontTask) (today now : Int)
    (s : EngineState) : EngineState :=
  let completed := completedTasks tasks
  let completedCount := completed.length
  let totalPoints := completed.foldl (fun sum t => sum + t.points.getD 0) 0
  let currentStreak := calcCurrentStreak tasks today
  let stats1 :=
    { s.stats with
      tasksCompleted := (completedCount : Int)
      totalTasks := (tasks.length : Int)
      totalPoints := totalPoints
      currentStreak := (currentStreak : Int) }
  let stats2 :=
    if (currentStreak : Int) > stats1.longestStreak then
      { stats1 with longestStreak := (currentStreak : Int) }
    else stats1
  let badges1 := unlockFirstMatch s.badges "first-task" (completedCount == 1) now
  let badges2 := unlockFirstMatch badges1 "streak-3" (3 ≤ currentStreak) now
  let badges3 := unlockFirstMatch badges2 "points-50" (50 ≤ totalPoints) now
  let badges4 := unlockFirstMatch badges3 "tasks-10" (10 ≤ completedCount) now
  { stats := stats2, badges := badges4 }

/-- `UserStats.getDefaultBadges()` (UserStats.js), restricted to the fields
the engine reads: all four badges locked. -/
def defaultBadges : List Badge :=
  [ { id := "first-task", unlocked := false, unlockedAt := none },
    { id := "streak-3", unlocked := false, unlockedAt := none },
    { id := "points-50", unlocked := false, unlockedAt := none },
    { id := "tasks-10", unlocked := false, unlockedAt := none } ]

/-- The all-zero statistics record (the schema defaults / the frontend's
initial `this.stats`). -/
def zeroStats : Stats :=
  { totalPoints := 0, currentStreak := 0, longestStreak := 0
    tasksCompleted := 0, totalTasks := 0 }

/-! ## Backend: `UserStats` document and the stats routes (stats.js) -/

/-- The persisted `UserStats` document (UserStats.js), restricted to the
fields the routes read and write. -/
structure UserStats where
  totalPoints : Int
  currentStreak : Int
  longestStreak : Int
  lastCompletedDate : Option Int
  tasksCompleted : Int
  totalTasks : Int
  badges : List Badge
  deriving Repr, DecidableEq

/-- The `updates.badge` sub-object of a `PATCH /api/stats` body:
`{badgeId, unlocked, unlockedAt}` with either field possibly absent. -/
structure BadgePatch where
  badgeId : String
  unlocked : Option Bool
  unlockedAt : Option (Option Int)
  deriving Repr, DecidableEq

/-- A `PATCH /api/stats` request body: every field optional (`undefined`
when absent). -/
structure StatsPatch where
  totalPoints : Option Int := none
  currentStreak : Option Int := none
  lastCompletedDate : Option (Option Int) := none
  tasksCompleted : Option Int := none
  totalTasks : Option Int := none
  badges : Option (List Badge) := none
  badge : Option BadgePatch := none
  deriving Repr, DecidableEq

/-- Update the first list element satisfying the predicate (a Mongo `_id`
or badge-id lookup followed by an in-place mutation). -/
def updateFirstBy {α : Type} (p : α → Bool) (f : α → α) : List α → List α
  | [] => []
  | x :: rest => if p x then f x :: rest else x :: updateFirstBy p f rest

/-- `router.patch("/")` in stats.js (lines 68–123): apply each supplied
field in order; a supplied `currentStreak` also raises `longestStreak`
when it exceeds it; a supplied `badge` patch rewrites the matching badge's
fields (keeping each field absent from the patch). Always replies 200. -/
def patchStats (st : UserStats) (u : StatsPatch) : UserStats :=
  let st := match u.totalPoints with
    | some v => { st with totalPoints := v }
    | none => st
  let st := match u.currentStreak with
    | some v =>
      let st := { st with currentStreak := v }
      if v > st.longestStreak then { st with longestStreak := v } else st
    | none => st
  let st := match u.lastCompletedDate with
    | some v => { st with lastCompletedDate := v }
    | none => st
  let st := match u.tasksCompleted with
    | some v => { st with tasksCompleted := v }
    | none => st
  let st := match u.totalTasks with
    | some v => { st with totalTasks := v }
    | none => st
  let st := match u.badges with
    | some bs => { st with badges := bs }
    | none => st
  match u.badge with
  | some bp =>
    { st with
      badges := updateFirstBy (fun b => b.id == bp.badgeId)
        (fun b =>
          { b with
            unlocked := bp.unlocked.getD b.unlocked
            unlockedAt := bp.unlockedAt.getD b.unlockedAt }) st.badges }
  | none => st

/-- `router.patch("/badge/:badgeId")` in stats.js (lines 160–193): find the
badge; 404 when absent; otherwise unconditionally set `unlocked = true` and
`unlockedAt = new Date()` and reply 200. Result: HTTP status code and the
stored document. -/
def patchBadgeUnlock (st : UserStats) (badgeId : String) (now : Int) :
    Nat × UserStats :=
  match st.badges.find? (fun b => b.id == badgeId) with
  | none => (404, st)
  | some _ =>
    (200,
      { st with
        badges := updateFirstBy (fun b => b.id == badgeId)
          (fun b => { b with unlocked := true, unlockedAt := some now }) st.badges })

/-! ## Backend: `Task` documents, schema validation, and the task routes -/

/-- A persisted task document (models/Task.js). -/
structure BackTask where
  id : String
  title : String
  description : String
  status : String
  createdAt : Int
  updatedAt : Int
  deriving Repr, DecidableEq

/-- The `status` enum of the task schema. -/
def validStatus (s : String) : Bool := s == "pending" || s == "completed"

/-- Mongoose schema validation of a task document (models/Task.js):
`title` required and ≤ 200 chars, `description` ≤ 1000 chars, `status` in
the enum. Returns the first validation error message, if any. -/
def taskValidationError (t : BackTask) : Option String :=
  if t.title == "" then some "Task title is required"
  else if 200 < t.title.length then some "Task title cannot exceed 200 characters"
  else if 1000 < t.description.length then some "Task description cannot exceed 1000 characters"
  else if !validStatus t.status then
    some "`status` is not a valid enum value for path `status`."
  else none

/-- A task-route request body: `{title?, description?, status?}`, each
field `undefined` when absent. -/
structure TaskBody where
  title : Option String := none
  description : Option String := none
  status : Option String := none
  deriving Repr, DecidableEq

/-- `!title || title.trim() === ""`: absent, empty (falsy) or
whitespace-only title. -/
def titleFalsy : Option String → Bool
  | none => true
  | some s => s == "" || jsTrim s == ""

/-- `description ? description.trim() : ""`. -/
def descOrEmpty : Option String → String
  | none => ""
  | some d => if d != "" then jsTrim d else ""

/-- `status || "pending"`. -/
def statusOrPending : Option String → String
  | none => "pending"
  | some s => if s != "" then s else "pending"

/-- An HTTP reply as the routes build it: status code, `success` flag,
`error` message when present. -/
structure ApiResponse where
  httpStatus : Nat
  success : Bool
  error : Option String
  deriving Repr, DecidableEq

/-- `router.post("/")` in tasks.js (lines 60–93): reject a falsy/blank
title with 400; otherwise `Task.create` with trimmed fields and
`status || "pending"` — a schema validation failure is caught by the
`catch` block and surfaces as 500. Returns the reply and the new store. -/
def postTask (body : TaskBody) (store : List BackTask) (newId : String)
    (now : Int) : ApiResponse × List BackTask :=
  if titleFalsy body.title then
    (⟨400, false, some "Task title is required"⟩, store)
  else
    let doc : BackTask :=
      { id := newId
        title := jsTrim (body.title.getD "")
        description := descOrEmpty body.description
        status := statusOrPending body.status
        createdAt := now
        updatedAt := now }
    match taskValidationError doc with
    | some msg => (⟨500, false, some msg⟩, store)
    | none => (⟨201, true, none⟩, store ++ [doc])

/-- `status && !["pending", "completed"].includes(status)`: a truthy status
outside the enum. -/
def statusTruthyInvalid : Option String → Bool
  | none => false
  | some s => s != "" && !validStatus s

/-- `router.put("/:id")` in tasks.js (lines 99–150): falsy/blank title →
400; a truthy non-enum status → 400; otherwise `findByIdAndUpdate` with
the full replacement `{title.trim(), description ? trim : "", status ||
"pending"}` and `runValidators` — 404 when absent, 500 on a validation
failure, 200 otherwise. -/
def putTask (id : String) (body : TaskBody) (store : List BackTask)
    (now : Int) : ApiResponse × List BackTask :=
  if titleFalsy body.title then
    (⟨400, false, some "Task title is required"⟩, store)
  else if statusTruthyInvalid body.status then
    (⟨400, false, some "Status must be either \x22pending\x22 or \x22completed\x22"⟩, store)
  else
    match store.find? (fun t => t.id == id) with
    | none => (⟨404, false, some "Task not found"⟩, store)
    | some t =>
      let t' : BackTask :=
        { t with
          title := jsTrim (body.title.getD "")
          description := descOrEmpty body.description
          status := statusOrPending body.status
          updatedAt := now }
      match taskValidationError t' with
      | some msg => (⟨500, false, some msg⟩, store)
      | none =>
        (⟨200, true, none⟩, updateFirstBy (fun x => x.id == id) (fun _ => t') store)

/-- `router.patch("/:id")` in tasks.js (lines 156–205): validate each
supplied field (blank title → 400, non-enum status → 400, including the
empty string), apply only the supplied fields via `findByIdAndUpdate` —
404 when absent, 500 on a validation failure, 200 otherwise. -/
def patchTask (id : String) (body : TaskBody) (store : List BackTask)
    (now : Int) : ApiResponse × List BackTask :=
  match body.title with
  | some s =>
    if jsTrim s == "" then (⟨400, false, some "Task title cannot be empty"⟩, store)
    else patchTaskApply id body store now
  | none => patchTaskApply id body store now
where
  patchTaskApply (id : String) (body : TaskBody) (store : List BackTask)
      (now : Int) : ApiResponse × List BackTask :=
    match body.status with
    | some s =>
      if !validStatus s then
        (⟨400, false, some "Status must be either \x22pending\x22 or \x22completed\x22"⟩, store)
      else patchTaskUpdate id body store now
    | none => patchTaskUpdate id body store now
  patchTaskUpdate (id : String) (body : TaskBody) (store : List BackTask)
      (now : Int) : ApiResponse × List BackTask :=
    match store.find? (fun t => t.id == id) with
    | none => (⟨404, false, some "Task not found"⟩, store)
    | some t =>
      let t' : BackTask :=
        { t with
          title := match body.title with | some s => jsTrim s | none => t.title
          description := match body.description with | some d => jsTrim d | none => t.description
          status := match body.status with | some s => s | none => t.status
          updatedAt := now }
      match taskValidationError t' with
      | some msg => (⟨500, false, some msg⟩, store)
      | none =>
        (⟨200, true, none⟩, updateFirstBy (fun x => x.id == id) (fun _ => t') store)

/-! ## Frontend: the API-backed `TaskManager`'s mutation methods
(app.js:911–1378), on their success path (the `fetch` round trip to the
backend succeeds). Each method mutates `this.tasks` from the backend's
reply (`mapTaskFromBackend`) and calls `checkBadgeUnlocks` only where the
source does. -/

/-- The API-backed `TaskManager`'s state: `this.tasks`, `this.stats`,
`this.badges`. -/
structure ManagerState where
  tasks : List FrontTask
  stats : Stats
  badges : List Badge
  deriving Repr, DecidableEq

/-- `TaskManager.addTask` (app.js:1116–1150): POST a pending task, map the
reply (`completed = false`, no `completedAt`), attach the client-side
points, prepend. No statistics recomputation. -/
def mgrAddTask (m : ManagerState) (newId title : String) (points : Int) :
    ManagerState :=
  let newTask : FrontTask :=
    { id := newId, title := title, completed := false
      completedAt := none, points := some points }
  { m with tasks := newTask :: m.tasks }

/-- `TaskManager.editTask` (app.js:1158–1195): PATCH the title, map the
reply — the backend refreshes `updatedAt`, so `mapTaskFromBackend` gives a
completed task a fresh `completedAt` — keep the old points, replace the
task. No statistics recomputation. -/
def mgrEditTask (m : ManagerState) (id title : String) (now : Int) :
    ManagerState :=
  match m.tasks.find? (fun t => t.id == id) with
  | none => m
  | some task =>
    let updated : FrontTask :=
      { task with
        title := jsTrim title
        completedAt := if task.completed then some (some now) else none }
    { m with tasks := m.tasks.map (fun t => if t.id == id then updated else t) }

/-- `TaskManager.deleteTask` (app.js:1202–1225): DELETE, then drop the task
from the local array. No statistics recomputation. -/
def mgrDeleteTask (m : ManagerState) (id : String) : ManagerState :=
  { m with tasks := m.tasks.filter (fun t => !(t.id == id)) }

/-- `TaskManager.toggleTask` (app.js:1232–1279): flip the task's status via
PATCH, map the reply (completing stamps `completedAt` with the backend's
`updatedAt`, un-completing clears it), then run `checkBadgeUnlocks` only
when the task was previously not completed. -/
def mgrToggleTask (m : ManagerState) (id : String) (today now : Int) :
    ManagerState :=
  match m.tasks.find? (fun t => t.id == id) with
  | none => m
  | some task =>
    let wasCompleted := task.completed
    let updated : FrontTask :=
      { task with
        completed := !task.completed
        completedAt := if !task.completed then some (some now) else none }
    let tasks' := m.tasks.map (fun t => if t.id == id then updated else t)
    if !wasCompleted then
      let es := checkBadgeUnlocks tasks' today now ⟨m.stats, m.badges⟩
      { tasks := tasks', stats := es.stats, badges := es.badges }
    else
      { m with tasks := tasks' }

/-! ## Derived notions used by the statements -/

/-- The calendar day of a task's completion timestamp, when the timestamp
is present and valid. -/
def dayOfValid (t : FrontTask) : Option Int :=
  match t.completedAt with
  | some (some ts) => some (ts.fdiv msPerDay)
  | _ => none

/-- Day `d` has at least one completed task whose (valid) completion
timestamp falls on that calendar date. -/
def completedOnDay (tasks : List FrontTask) (d : Int) : Prop :=
  ∃ t ∈ tasks, t.completed = true ∧ dayOfValid t = some d

instance (tasks : List FrontTask) (d : Int) : Decidable (completedOnDay tasks d) :=
  List.decidableBEx _ tasks

/-- The first badge with the given id (`badges.find(b => b.id === bid)`). -/
def firstWith (bs : List Badge) (bid : String) : Option Badge :=
  bs.find? (fun b => b.id == bid)

/-- A badge list is settled for a rule when, if the rule's condition holds,
its first matching badge (if any) is already unlocked. -/
def settled (bs : List Badge) (bid : String) (c : Bool) : Prop :=
  c = true → ∀ b, firstWith bs bid = some b → b.unlocked = true

/-- The engine's `totalPoints` accumulator
(`completedTasks.reduce((sum, t) => sum + (t.points || 0), 0)`). -/
def enginePoints (tasks : List FrontTask) : Int :=
  (completedTasks tasks).foldl (fun sum t => sum + t.points.getD 0) 0

/-! ## Concrete inputs used in scenario theorems and counterexamples -/

/-- A fixed "today": calendar day number 20000. -/
def egToday : Int := 20000

/-- A fixed "now" timestamp for `unlockedAt` stamps. -/
def egNow : Int := 999

/-- A task completed today (one hour into day 20000) worth 10 points. -/
def taskCompletedToday : FrontTask :=
  { id := "t1", title := "Write report", completed := true
    completedAt := some (some (20000 * 86400000 + 3600000)), points := some 10 }

/-- A second task completed today. -/
def taskCompletedToday2 : FrontTask :=
  { taskCompletedToday with id := "t2", title := "Second task" }

/-- A task completed three calendar days before `egToday`. -/
def taskThreeDaysAgo : FrontTask :=
  { id := "t3", title := "Old task", completed := true
    completedAt := some (some (19997 * 86400000 + 7200000)), points := some 5 }

/-- The engine's starting state: all-zero statistics, all badges locked. -/
def initialEngineState : EngineState :=
  { stats := zeroStats, badges := defaultBadges }

/-- A `UserStats` document whose `first-task` badge is already unlocked
with `unlockedAt = 100`. -/
def unlockedStats : UserStats :=
  { totalPoints := 0, currentStreak := 0, longestStreak := 0
    lastCompletedDate := none, tasksCompleted := 0, totalTasks := 0
    badges := [{ id := "first-task", unlocked := true, unlockedAt := some 100 }] }

/-- A manager state holding one completed task and the statistics the
engine derived from it. -/
def staleState : ManagerState :=
  { tasks := [taskCompletedToday]
    stats := { totalPoints := 10, currentStreak := 1, longestStreak := 1
               tasksCompleted := 1, totalTasks := 1 }
    badges := defaultBadges }

/-! ## Lemmas: the unique-date list and the streak loop -/

theorem mem_pushUnique {x d : Option Int} {acc : List (Option Int)} :
    x ∈ pushUnique acc d ↔ x ∈ acc ∨ x = d := by
  unfold pushUnique
  split
  · next h => simp only [iff_self_or]; rintro rfl; exact h
  · simp

theorem mem_foldl_pushUnique (l : List (Option Int)) :
    ∀ acc x, x ∈ l.foldl pushUnique acc ↔ x ∈ acc ∨ x ∈ l := by
  induction l with
  | nil => simp
  | cons d l ih =>
    intro acc x
    simp only [List.foldl_cons, ih, mem_pushUnique, List.mem_cons]
    tauto

theorem nodup_pushUnique {d : Option Int} {acc : List (Option Int)}
    (h : acc.Nodup) : (pushUnique acc d).Nodup := by
  unfold pushUnique
  split
  · exact h
  · next hd => simpa [List.nodup_append, h] using hd

theorem nodup_foldl_pushUnique (l : List (Option Int)) :
    ∀ acc : List (Option Int), acc.Nodup → (l.foldl pushUnique acc).Nodup := by
  induction l with
  | nil => intro acc h; simpa using h
  | cons d l ih => intro acc h; exact ih _ (nodup_pushUnique h)

theorem nodup_uniqueDatesOf (tasks : List FrontTask) :
    (uniqueDatesOf tasks).Nodup :=
  nodup_foldl_pushUnique _ [] List.nodup_nil

theorem mem_insertDesc (d x : Option Int) (l : List (Option Int)) :
    x ∈ insertDesc d l ↔ x = d ∨ x ∈ l := by
  induction l with
  | nil => simp [insertDesc]
  | cons y ys ih =>
    unfold insertDesc
    split
    · simp
    · simp only [List.mem_cons, ih]
      tauto

theorem mem_sortDesc (x : Option Int) (l : List (Option Int)) :
    x ∈ sortDesc l ↔ x ∈ l := by
  induction l with
  | nil => simp [sortDesc]
  | cons y ys ih =>
    unfold sortDesc
    rw [mem_insertDesc]
    simp [ih]

theorem mem_uniqueDatesOf (tasks : List FrontTask) (d : Int) :
    some d ∈ uniqueDatesOf tasks ↔ completedOnDay tasks d := by
  unfold uniqueDatesOf completionDatesOf completedOnDay
  rw [mem_foldl_pushUnique]
  simp only [List.not_mem_nil, false_or, mem_sortDesc, List.mem_map,
    List.mem_filter]
  constructor
  · rintro ⟨t, ⟨⟨ht, hc⟩, hs⟩, hn⟩
    refine ⟨t, ht, by simpa using hc, ?_⟩
    rcases h : t.completedAt with _ | jd
    · rw [h] at hs; simp at hs
    · rw [h] at hn
      rcases jd with _ | ts
      · simp [normalizeDay] at hn
      · simp only [normalizeDay, Option.getD_some, Option.some.injEq] at hn
        simp [dayOfValid, h, hn]
  · rintro ⟨t, ht, hc, hv⟩
    rcases h : t.completedAt with _ | jd
    · rw [dayOfValid, h] at hv; simp at hv
    · rcases jd with _ | ts
      · rw [dayOfValid, h] at hv; simp at hv
      · rw [dayOfValid, h] at hv
        simp only [Option.some.injEq] at hv
        exact ⟨t, ⟨⟨ht, by simpa using hc⟩, by simp [h]⟩, by simp [h, normalizeDay, hv]⟩

theorem streakGo_le (dates : List (Option Int)) (today : Int) :
    ∀ fuel i, streakGo dates today i fuel ≤ fuel := by
  intro fuel
  induction fuel with
  | zero => intro i; simp [streakGo]
  | succ fuel ih =>
    intro i
    unfold streakGo
    split
    · have := ih (i + 1); omega
    · omega

theorem streakGo_present (dates : List (Option Int)) (today : Int) :
    ∀ fuel i j, j < streakGo dates today i fuel →
      some (today - ((i + j : Nat) : Int)) ∈ dates := by
  intro fuel
  induction fuel with
  | zero => intro i j h; simp [streakGo] at h
  | succ fuel ih =>
    intro i j h
    unfold streakGo at h
    split at h
    · next hmem =>
      rcases j with _ | j
      · simpa using hmem
      · have := ih (i + 1) j (by omega)
        have harith : i + 1 + j = i + (j + 1) := by omega
        rwa [harith] at this
    · omega

theorem streakGo_stop (dates : List (Option Int)) (today : Int) :
    ∀ fuel i, streakGo dates today i fuel < fuel →
      some (today - ((i + streakGo dates today i fuel : Nat) : Int)) ∉ dates := by
  intro fuel
  induction fuel with
  | zero => intro i h; simp [streakGo] at h
  | succ fuel ih =>
    intro i h
    by_cases hmem : some (today - (i : Int)) ∈ dates
    · have hg : streakGo dates today i (fuel + 1)
          = 1 + streakGo dates today (i + 1) fuel := by
        simp only [streakGo]; rw [if_pos hmem]
      rw [hg] at h ⊢
      have := ih (i + 1) (by omega)
      have harith : i + 1 + streakGo dates today (i + 1) fuel
          = i + (1 + streakGo dates today (i + 1) fuel) := by omega
      rwa [harith] at this
    · have hg : streakGo dates today i (fuel + 1) = 0 := by
        unfold streakGo; simp [hmem]
      rw [hg]
      simpa using hmem

theorem calcCurrentStreak_present (tasks : List FrontTask) (today : Int) :
    ∀ i : Nat, i < calcCurrentStreak tasks today →
      completedOnDay tasks (today - (i : Int)) := by
  intro i h
  rw [← mem_uniqueDatesOf]
  have := streakGo_present (uniqueDatesOf tasks) today
    (uniqueDatesOf tasks).length 0 i h
  simpa using this

theorem calcCurrentStreak_not_present (tasks : List FrontTask) (today : Int) :
    ¬ completedOnDay tasks (today - (calcCurrentStreak tasks today : Int)) := by
  rw [← mem_uniqueDatesOf]
  set L := uniqueDatesOf tasks with hL
  set S := calcCurrentStreak tasks today with hS
  have hle : S ≤ L.length := streakGo_le L today L.length 0
  rcases lt_or_eq_of_le hle with hlt | heq
  · have := streakGo_stop L today L.length 0 (by simpa [calcCurrentStreak, ← hL, ← hS] using hlt)
    simpa [calcCurrentStreak, ← hL, ← hS] using this
  · intro hmem
    have hpresent : ∀ j : Nat, j < S → some (today - (j : Int)) ∈ L := by
      intro j hj
      have := streakGo_present L today L.length 0 j
        (by simpa [calcCurrentStreak, ← hL, ← hS] using hj)
      simpa using this
    set D : List (Option Int) :=
      (List.range (S + 1)).map (fun (j : Nat) => some (today - (j : Int))) with hD
    have hDnodup : D.Nodup := by
      refine List.Nodup.map ?_ (List.nodup_range (S + 1))
      intro a b hab
      simp only [Option.some.injEq, sub_right_inj, Nat.cast_inj] at hab
      exact hab
    have hDsub : D ⊆ L := by
      intro x hx
      rw [hD, List.mem_map] at hx
      rcases hx with ⟨j, hj, rfl⟩
      rw [List.mem_range] at hj
      rcases Nat.lt_succ_iff_lt_or_eq.mp hj with hj' | rfl
      · exact hpresent j hj'
      · exact hmem
    have hlen : D.length = S + 1 := by simp [hD]
    have := (List.Nodup.subperm hDnodup hDsub).length_le
    omega

/-! ## Lemmas: badge updates -/

theorem unlockTransform_id (c : Bool) (n : Int) (b : Badge) :
    (unlockTransform c n b).id = b.id := by
  unfold unlockTransform; split <;> rfl

theorem unlockTransform_of_unlocked (c : Bool) (n : Int) (b : Badge)
    (h : b.unlocked = true) : unlockTransform c n b = b := by
  unfold unlockTransform
  rw [h]
  simp

theorem unlockTransform_unlocked_of_true (n : Int) (b : Badge) :
    (unlockTransform true n b).unlocked = true := by
  unfold unlockTransform
  rcases h : b.unlocked with _ | _ <;> simp [h]

theorem firstWith_unlockFirstMatch_ne (bs : List Badge) (bid bid' : String)
    (c : Bool) (n : Int) (h : bid ≠ bid') :
    firstWith (unlockFirstMatch bs bid' c n) bid = firstWith bs bid := by
  induction bs with
  | nil => rfl
  | cons b rest ih =>
    by_cases hb : (b.id == bid') = true
    · have hbid : b.id = bid' := by simpa using hb
      have hne : (b.id == bid) = false := by
        simp only [beq_eq_false_iff_ne, hbid]
        exact fun hc => h hc.symm
      have hne' : ((unlockTransform c n b).id == bid) = false := by
        rw [unlockTransform_id]; exact hne
      simp only [unlockFirstMatch, hb, if_true, firstWith]
      rw [List.find?_cons_of_neg _ (by simp [hne']),
        List.find?_cons_of_neg _ (by simp [hne])]
    · have hb' : (b.id == bid') = false := by simpa using hb
      simp only [unlockFirstMatch, hb', Bool.false_eq_true, if_false, firstWith]
      by_cases hbb : (b.id == bid) = true
      · rw [List.find?_cons_of_pos _ (by simp [hbb]),
          List.find?_cons_of_pos _ (by simp [hbb])]
      · rw [List.find?_cons_of_neg _ (by simp_all),
          List.find?_cons_of_neg _ (by simp_all)]
        exact ih

theorem firstWith_unlockFirstMatch_self (bs : List Badge) (bid : String)
    (c : Bool) (n : Int) :
    firstWith (unlockFirstMatch bs bid c n) bid
      = (firstWith bs bid).map (unlockTransform c n) := by
  induction bs with
  | nil => rfl
  | cons b rest ih =>
    by_cases hb : (b.id == bid) = true
    · have hb' : ((unlockTransform c n b).id == bid) = true := by
        rw [unlockTransform_id]; exact hb
      simp only [unlockFirstMatch, hb, if_true, firstWith]
      rw [List.find?_cons_of_pos _ (by simp [hb']),
        List.find?_cons_of_pos _ (by simp [hb])]
      rfl
    · have hbf : (b.id == bid) = false := by simpa using hb
      simp only [unlockFirstMatch, hbf, Bool.false_eq_true, if_false, firstWith]
      rw [List.find?_cons_of_neg _ (by simp_all),
        List.find?_cons_of_neg _ (by simp_all)]
      exact ih

theorem unlockFirstMatch_of_none (bs : List Badge) (bid : String)
    (c : Bool) (n : Int) (h : firstWith bs bid = none) :
    unlockFirstMatch bs bid c n = bs := by
  induction bs with
  | nil => rfl
  | cons b rest ih =>
    by_cases hb : (b.id == bid) = true
    · rw [firstWith, List.find?_cons_of_pos _ (by simp [hb])] at h
      exact absurd h (by simp)
    · have hbf : (b.id == bid) = false := by simpa using hb
      rw [firstWith, List.find?_cons_of_neg _ (by simp_all)] at h
      simp only [unlockFirstMatch, hbf, Bool.false_eq_true, if_false,
        List.cons.injEq, true_and]
      exact ih h

theorem unlockFirstMatch_of_unlocked (bs : List Badge) (bid : String)
    (c : Bool) (n : Int) (b : Badge) (h : firstWith bs bid = some b)
    (hu : b.unlocked = true) :
    unlockFirstMatch bs bid c n = bs := by
  induction bs with
  | nil => simp [firstWith] at h
  | cons hd rest ih =>
    by_cases hb : (hd.id == bid) = true
    · rw [firstWith, List.find?_cons_of_pos _ (by simp [hb])] at h
      have hbd : hd = b := by simpa using h
      subst hbd
      simp only [unlockFirstMatch, hb, if_true, List.cons.injEq, and_true]
      exact unlockTransform_of_unlocked c n hd hu
    · have hbf : (hd.id == bid) = false := by simpa using hb
      rw [firstWith, List.find?_cons_of_neg _ (by simp_all)] at h
      simp only [unlockFirstMatch, hbf, Bool.false_eq_true, if_false,
        List.cons.injEq, true_and]
      exact ih h

theorem unlockFirstMatch_false (bs : List Badge) (bid : String) (n : Int) :
    unlockFirstMatch bs bid false n = bs := by
  induction bs with
  | nil => rfl
  | cons b rest ih =>
    simp only [unlockFirstMatch, unlockTransform, Bool.and_false,
      Bool.false_eq_true, if_false]
    split <;> simp [ih]

theorem settled_after_unlockFirstMatch (bs : List Badge) (bid : String)
    (c : Bool) (n : Int) : settled (unlockFirstMatch bs bid c n) bid c := by
  intro hc b hb
  rw [firstWith_unlockFirstMatch_self] at hb
  rcases h : firstWith bs bid with _ | b0
  · rw [h] at hb; simp at hb
  · rw [h] at hb
    simp only [Option.map_some', Option.some.injEq] at hb
    subst hc
    rw [← hb]
    exact unlockTransform_unlocked_of_true n b0

theorem settled_preserved_ne (bs : List Badge) (bid bid' : String)
    (c c' : Bool) (n : Int) (hne : bid ≠ bid') (h : settled bs bid c) :
    settled (unlockFirstMatch bs bid' c' n) bid c := by
  intro hc b hb
  rw [firstWith_unlockFirstMatch_ne bs bid bid' c' n hne] at hb
  exact h hc b hb

theorem unlockFirstMatch_of_settled (bs : List Badge) (bid : String)
    (c : Bool) (n : Int) (h : settled bs bid c) :
    unlockFirstMatch bs bid c n = bs := by
  rcases hc : c with _ | _
  · exact unlockFirstMatch_false bs bid n
  · rcases hf : firstWith bs bid with _ | b
    · exact unlockFirstMatch_of_none bs bid true n hf
    · exact unlockFirstMatch_of_unlocked bs bid true n b hf (h hc b hf)

theorem unlockFirstMatch_getElem?_of_unlocked (bs : List Badge) (bid : String)
    (c : Bool) (n : Int) (k : Nat) (b : Badge) (hk : bs[k]? = some b)
    (hu : b.unlocked = true) : (unlockFirstMatch bs bid c n)[k]? = some b := by
  induction bs generalizing k with
  | nil => simp at hk
  | cons hd rest ih =>
    rcases k with _ | k
    · simp only [List.getElem?_cons_zero, Option.some.injEq] at hk
      subst hk
      simp only [unlockFirstMatch]
      split
      · simp [unlockTransform_of_unlocked c n hd hu]
      · simp
    · simp only [List.getElem?_cons_succ] at hk
      simp only [unlockFirstMatch]
      split
      · simpa using hk
      · simpa using ih k hk

/-! ## Lemmas: the engine's output, componentwise -/

theorem checkBadgeUnlocks_stats (tasks : List FrontTask) (today now : Int)
    (st : EngineState) :
    (checkBadgeUnlocks tasks today now st).stats =
      { totalPoints := enginePoints tasks
        currentStreak := (calcCurrentStreak tasks today : Int)
        longestStreak := max st.stats.longestStreak (calcCurrentStreak tasks today : Int)
        tasksCompleted := ((completedTasks tasks).length : Int)
        totalTasks := (tasks.length : Int) } := by
  unfold checkBadgeUnlocks enginePoints
  dsimp only
  split
  · next h =>
    simp only [Stats.mk.injEq, true_and, and_true]
    exact (max_eq_right (le_of_lt h)).symm
  · next h =>
    simp only [Stats.mk.injEq, true_and, and_true]
    exact (max_eq_left (not_lt.mp h)).symm

theorem checkBadgeUnlocks_badges (tasks : List FrontTask) (today now : Int)
    (st : EngineState) :
    (checkBadgeUnlocks tasks today now st).badges =
      unlockFirstMatch (unlockFirstMatch (unlockFirstMatch (unlockFirstMatch
        st.badges "first-task" ((completedTasks tasks).length == 1) now)
        "streak-3" (decide (3 ≤ calcCurrentStreak tasks today)) now)
        "points-50" (decide (50 ≤ enginePoints tasks)) now)
        "tasks-10" (decide (10 ≤ (completedTasks tasks).length)) now := by
  unfold checkBadgeUnlocks enginePoints
  dsimp only

/-! ## Claim theorems -/

/-- C1: for every task list, the engine's `currentStreak` equals the number
of consecutive calendar days counting backward from today such that each
day has at least one completed task whose (valid) completion timestamp
falls on that calendar date, stopping at the first missing day; if today
has no completion the streak is 0, and a completion today with the
preceding day missing yields exactly 1. -/
theorem currentStreak_consecutive_days (tasks : List FrontTask)
    (today now : Int) (st : EngineState) :
    (checkBadgeUnlocks tasks today now st).stats.currentStreak
        = (calcCurrentStreak tasks today : Int)
    ∧ (∀ i : Nat, i < calcCurrentStreak tasks today →
        completedOnDay tasks (today - (i : Int)))
    ∧ ¬ completedOnDay tasks (today - (calcCurrentStreak tasks today : Int))
    ∧ (¬ completedOnDay tasks today → calcCurrentStreak tasks today = 0)
    ∧ (completedOnDay tasks today → ¬ completedOnDay tasks (today - 1) →
        calcCurrentStreak tasks today = 1) := by
  refine ⟨?_, calcCurrentStreak_present tasks today,
    calcCurrentStreak_not_present tasks today, ?_, ?_⟩
  · rw [checkBadgeUnlocks_stats]
  · intro h
    by_contra hne
    have h0 : 0 < calcCurrentStreak tasks today := Nat.pos_of_ne_zero hne
    have hp := calcCurrentStreak_present tasks today 0 h0
    simp only [Nat.cast_zero, sub_zero] at hp
    exact h hp
  · intro h1 h2
    rcases Nat.lt_trichotomy (calcCurrentStreak tasks today) 1 with h | h | h
    · exfalso
      have h0 : calcCurrentStreak tasks today = 0 := by omega
      have hn := calcCurrentStreak_not_present tasks today
      rw [h0] at hn
      simp only [Nat.cast_zero, sub_zero] at hn
      exact hn h1
    · exact h
    · exfalso
      have hp := calcCurrentStreak_present tasks today 1 h
      simp only [Nat.cast_one] at hp
      exact h2 hp

/-- Witness for C1 at a concrete input: completions on today and three days
ago only give a streak of exactly 1. -/
theorem currentStreak_consecutive_days_witness :
    completedOnDay [taskCompletedToday, taskThreeDaysAgo] egToday
    ∧ ¬ completedOnDay [taskCompletedToday, taskThreeDaysAgo] (egToday - 1)
    ∧ calcCurrentStreak [taskCompletedToday, taskThreeDaysAgo] egToday = 1 :=
  ⟨by decide, by decide,
    (currentStreak_consecutive_days [taskCompletedToday, taskThreeDaysAgo]
      egToday egNow initialEngineState).2.2.2.2 (by decide) (by decide)⟩

/-- C2 counterexample: `PATCH /api/stats/badge/:badgeId` on an
already-unlocked badge (unlockedAt = 100) rewrites `unlockedAt` to the
current time (200), so `unlockedAt` is not written exactly once. -/
theorem patch_badge_rewrites_unlockedAt :
    (unlockedStats.badges.find? (fun b => b.id == "first-task")).map (·.unlockedAt)
        = some (some 100)
    ∧ (patchBadgeUnlock unlockedStats "first-task" 200).1 = 200
    ∧ ((patchBadgeUnlock unlockedStats "first-task" 200).2.badges.find?
        (fun b => b.id == "first-task")).map (·.unlockedAt) = some (some 200)
    ∧ (some (200 : Int) ≠ some (100 : Int)) := by decide

/-- C2 (amended): across Achievement Engine recomputations a badge's
`unlocked` flag never reverts to false and an already-unlocked badge's
record — `unlockedAt` included — is left untouched; the HTTP force-unlock
endpoint does not share this property (it rewrites `unlockedAt` on every
call). -/
theorem engine_preserves_unlocked_badges (tasks : List FrontTask)
    (today now : Int) (st : EngineState) (k : Nat) (b : Badge)
    (hk : st.badges[k]? = some b) (hu : b.unlocked = true) :
    (checkBadgeUnlocks tasks today now st).badges[k]? = some b := by
  rw [checkBadgeUnlocks_badges]
  exact unlockFirstMatch_getElem?_of_unlocked _ _ _ _ k b
    (unlockFirstMatch_getElem?_of_unlocked _ _ _ _ k b
      (unlockFirstMatch_getElem?_of_unlocked _ _ _ _ k b
        (unlockFirstMatch_getElem?_of_unlocked _ _ _ _ k b hk hu) hu) hu) hu

/-- Witness for the amended C2 at a concrete input. -/
theorem engine_preserves_unlocked_badges_witness :
    (checkBadgeUnlocks [taskCompletedToday] egToday egNow
        ⟨zeroStats, [{ id := "first-task", unlocked := true, unlockedAt := some 100 }]⟩).badges[0]?
      = some { id := "first-task", unlocked := true, unlockedAt := some 100 } :=
  engine_preserves_unlocked_badges [taskCompletedToday] egToday egNow
    ⟨zeroStats, [{ id := "first-task", unlocked := true, unlockedAt := some 100 }]⟩
    0 { id := "first-task", unlocked := true, unlockedAt := some 100 } rfl rfl

/-- C3 counterexample: two completed tasks (completedCount = 2 ≥ 1), all
badges initially locked, yet a from-scratch recomputation leaves the
`first-task` badge locked — the `== 1` trigger is not equivalent to the
`≥ 1` threshold. -/
theorem first_task_locked_at_two_completions :
    (completedTasks [taskCompletedToday, taskCompletedToday2]).length = 2
    ∧ ((checkBadgeUnlocks [taskCompletedToday, taskCompletedToday2] egToday egNow
          initialEngineState).badges.find? (fun b => b.id == "first-task")).map (·.unlocked)
        = some false := by decide

/-- C3 (amended): a recomputation on a locked `first-task` badge unlocks it
exactly when the completed count equals 1; any other count — including
counts ≥ 2 — leaves it locked. -/
theorem first_task_unlocks_iff_count_one (tasks : List FrontTask)
    (today now : Int) (st : EngineState) (b : Badge)
    (hb : firstWith st.badges "first-task" = some b)
    (hu : b.unlocked = false) :
    (firstWith (checkBadgeUnlocks tasks today now st).badges "first-task").map (·.unlocked)
      = some ((completedTasks tasks).length == 1) := by
  rw [checkBadgeUnlocks_badges]
  rw [firstWith_unlockFirstMatch_ne _ _ _ _ _ (by decide)]
  rw [firstWith_unlockFirstMatch_ne _ _ _ _ _ (by decide)]
  rw [firstWith_unlockFirstMatch_ne _ _ _ _ _ (by decide)]
  rw [firstWith_unlockFirstMatch_self, hb]
  simp only [Option.map_some']
  unfold unlockTransform
  rw [hu]
  rcases hc : ((completedTasks tasks).length == 1) with _ | _
  · simp [hu]
  · simp

/-- Witness for the amended C3 at a concrete input: one completed task
unlocks `first-task`. -/
theorem first_task_unlocks_iff_count_one_witness :
    (firstWith (checkBadgeUnlocks [taskCompletedToday] egToday egNow
        initialEngineState).badges "first-task").map (·.unlocked) = some true := by
  have h := first_task_unlocks_iff_count_one [taskCompletedToday] egToday egNow
    initialEngineState { id := "first-task", unlocked := false, unlockedAt := none }
    (by decide) rfl
  rw [h]
  decide

/-- `PATCH /api/stats` with a supplied `currentStreak` stores it and raises
`longestStreak` to the maximum of its previous value and the new streak. -/
theorem patchStats_streak_fields (doc : UserStats) (u : StatsPatch) (c : Int)
    (hc : u.currentStreak = some c) :
    (patchStats doc u).longestStreak = max doc.longestStreak c
    ∧ (patchStats doc u).currentStreak = c := by
  rcases u with ⟨tp, cs, lcd, tc, tt, bs, bp⟩
  dsimp only at hc
  subst hc
  unfold patchStats
  rcases tp with _ | v1 <;> rcases lcd with _ | v2 <;> rcases tc with _ | v3 <;>
    rcases tt with _ | v4 <;> rcases bs with _ | v5 <;> rcases bp with _ | v6 <;>
    refine ⟨?_, ?_⟩ <;> dsimp only <;>
    first
      | (split
         · next h => exact (max_eq_right (le_of_lt h)).symm
         · next h => exact (max_eq_left (not_lt.mp h)).symm)
      | (split <;> rfl)

/-- C4: after every engine recomputation the stored `longestStreak` equals
`max(previous longestStreak, new currentStreak)` — hence it never
decreases and dominates `currentStreak` — and every `PATCH /api/stats`
that supplies `currentStreak` maintains the same equation. -/
theorem longestStreak_is_max (tasks : List FrontTask) (today now : Int)
    (st : EngineState) (doc : UserStats) (u : StatsPatch) :
    ((checkBadgeUnlocks tasks today now st).stats.longestStreak
        = max st.stats.longestStreak (checkBadgeUnlocks tasks today now st).stats.currentStreak
      ∧ st.stats.longestStreak ≤ (checkBadgeUnlocks tasks today now st).stats.longestStreak
      ∧ (checkBadgeUnlocks tasks today now st).stats.currentStreak
        ≤ (checkBadgeUnlocks tasks today now st).stats.longestStreak)
    ∧ (∀ c : Int, u.currentStreak = some c →
        (patchStats doc u).longestStreak = max doc.longestStreak c
        ∧ doc.longestStreak ≤ (patchStats doc u).longestStreak
        ∧ (patchStats doc u).currentStreak ≤ (patchStats doc u).longestStreak) := by
  constructor
  · rw [checkBadgeUnlocks_stats]
    exact ⟨rfl, le_max_left _ _, le_max_right _ _⟩
  · intro c hc
    have h := patchStats_streak_fields doc u c hc
    rw [h.1, h.2]
    exact ⟨rfl, le_max_left _ _, le_max_right _ _⟩

/-- Witness for C4 at a concrete input: a patch with `currentStreak = 3`
against a stored `longestStreak = 5` keeps `longestStreak = max 5 3`. -/
theorem longestStreak_is_max_witness :
    (patchStats ⟨0, 0, 5, none, 0, 0, []⟩ { currentStreak := some 3 }).longestStreak
        = max (5 : Int) 3
    ∧ (5 : Int) ≤ (patchStats ⟨0, 0, 5, none, 0, 0, []⟩ { currentStreak := some 3 }).longestStreak
    ∧ (patchStats ⟨0, 0, 5, none, 0, 0, []⟩ { currentStreak := some 3 }).currentStreak
        ≤ (patchStats ⟨0, 0, 5, none, 0, 0, []⟩ { currentStreak := some 3 }).longestStreak :=
  (longestStreak_is_max [] egToday egNow initialEngineState
    ⟨0, 0, 5, none, 0, 0, []⟩ { currentStreak := some 3 }).2 3 rfl

/-- C5: Scenario B — one task completed today worth 10 points, starting
from all-zero statistics and all badges locked, yields completedCount = 1,
totalPoints = 10, currentStreak = 1, `first-task` unlocked and the other
three badges still locked. -/
theorem scenario_b_one_completed_task :
    checkBadgeUnlocks [taskCompletedToday] egToday egNow initialEngineState =
      { stats := { totalPoints := 10, currentStreak := 1, longestStreak := 1
                   tasksCompleted := 1, totalTasks := 1 }
        badges := [ { id := "first-task", unlocked := true, unlockedAt := some egNow },
                    { id := "streak-3", unlocked := false, unlockedAt := none },
                    { id := "points-50", unlocked := false, unlockedAt := none },
                    { id := "tasks-10", unlocked := false, unlockedAt := none } ] } := by
  decide

/-- Two task lists inducing the same completion-day predicate get the same
streak: the streak is determined by the characterization
(`calcCurrentStreak_present` / `calcCurrentStreak_not_present`). -/
theorem calcCurrentStreak_congr (t1 t2 : List FrontTask) (today : Int)
    (h : ∀ d : Int, completedOnDay t1 d ↔ completedOnDay t2 d) :
    calcCurrentStreak t1 today = calcCurrentStreak t2 today := by
  rcases Nat.lt_trichotomy (calcCurrentStreak t1 today) (calcCurrentStreak t2 today)
    with hlt | heq | hgt
  · exfalso
    have hp := calcCurrentStreak_present t2 today (calcCurrentStreak t1 today) hlt
    exact calcCurrentStreak_not_present t1 today ((h _).mpr hp)
  · exact heq
  · exfalso
    have hp := calcCurrentStreak_present t1 today (calcCurrentStreak t2 today) hgt
    exact calcCurrentStreak_not_present t2 today ((h _).mp hp)

/-- Dropping completed tasks whose completion timestamp is missing or
malformed does not change the completion-day predicate. -/
theorem completedOnDay_filter_valid (tasks : List FrontTask) (d : Int) :
    completedOnDay (tasks.filter (fun t => !t.completed || (dayOfValid t).isSome)) d
      ↔ completedOnDay tasks d := by
  unfold completedOnDay
  constructor
  · rintro ⟨t, ht, hc, hv⟩
    exact ⟨t, (List.mem_filter.mp ht).1, hc, hv⟩
  · rintro ⟨t, ht, hc, hv⟩
    refine ⟨t, List.mem_filter.mpr ⟨ht, ?_⟩, hc, hv⟩
    simp [hv]

/-- Folding point addition equals the sum of the mapped point values. -/
theorem foldl_points_eq_sum (l : List FrontTask) :
    ∀ init : Int, l.foldl (fun sum t => sum + t.points.getD 0) init
      = init + (l.map (fun t => t.points.getD 0)).sum := by
  induction l with
  | nil => intro init; simp
  | cons t rest ih =>
    intro init
    simp only [List.foldl_cons, List.map_cons, List.sum_cons, ih, add_assoc]

/-- C7: completed tasks with a missing or malformed completion timestamp
are excluded from the streak-date derivation (the streak is unchanged when
they are dropped) but still count toward `completedCount` and
`totalPoints`; the empty task list yields all-zero statistics and leaves
every badge exactly as it was. -/
theorem invalid_timestamps_and_empty_list (tasks : List FrontTask)
    (today now : Int) (st : EngineState) :
    calcCurrentStreak tasks today
        = calcCurrentStreak (tasks.filter (fun t => !t.completed || (dayOfValid t).isSome)) today
    ∧ (checkBadgeUnlocks tasks today now st).stats.tasksCompleted
        = (tasks.countP (·.completed) : Int)
    ∧ (checkBadgeUnlocks tasks today now st).stats.totalPoints
        = ((tasks.filter (·.completed)).map (fun t => t.points.getD 0)).sum
    ∧ (checkBadgeUnlocks [] today now st).stats.tasksCompleted = 0
    ∧ (checkBadgeUnlocks [] today now st).stats.totalPoints = 0
    ∧ (checkBadgeUnlocks [] today now st).stats.currentStreak = 0
    ∧ (checkBadgeUnlocks [] today now st).badges = st.badges := by
  refine ⟨?_, ?_, ?_, ?_, ?_, ?_, ?_⟩
  · exact calcCurrentStreak_congr _ _ today
      (fun d => (completedOnDay_filter_valid tasks d).symm)
  · rw [checkBadgeUnlocks_stats]
    dsimp only
    rw [List.countP_eq_length_filter]
    rfl
  · rw [checkBadgeUnlocks_stats]
    dsimp only
    unfold enginePoints
    rw [foldl_points_eq_sum]
    simp [completedTasks]
  · rw [checkBadgeUnlocks_stats]
    rfl
  · rw [checkBadgeUnlocks_stats]
    rfl
  · rw [checkBadgeUnlocks_stats]
    rfl
  · rw [checkBadgeUnlocks_badges]
    rw [show ((completedTasks ([] : List FrontTask)).length == 1) = false from rfl]
    rw [show decide (3 ≤ calcCurrentStreak [] today) = false from rfl]
    rw [show decide (50 ≤ enginePoints []) = false from rfl]
    rw [show decide (10 ≤ (completedTasks ([] : List FrontTask)).length) = false from rfl]
    rw [unlockFirstMatch_false, unlockFirstMatch_false, unlockFirstMatch_false,
      unlockFirstMatch_false]

/-- C8: the engine is idempotent — rerunning it on an unchanged task set
(whatever timestamp the second run carries) reproduces the first run's
state exactly: same statistics, same badges, same `unlockedAt` stamps. -/
theorem engine_idempotent (tasks : List FrontTask) (today now1 now2 : Int)
    (st : EngineState) :
    checkBadgeUnlocks tasks today now2 (checkBadgeUnlocks tasks today now1 st)
      = checkBadgeUnlocks tasks today now1 st := by
  have hstats : (checkBadgeUnlocks tasks today now2 (checkBadgeUnlocks tasks today now1 st)).stats
      = (checkBadgeUnlocks tasks today now1 st).stats := by
    rw [checkBadgeUnlocks_stats, checkBadgeUnlocks_stats]
    simp [max_assoc, max_self]
  have hbadges : (checkBadgeUnlocks tasks today now2 (checkBadgeUnlocks tasks today now1 st)).badges
      = (checkBadgeUnlocks tasks today now1 st).badges := by
    rw [checkBadgeUnlocks_badges tasks today now2, checkBadgeUnlocks_badges tasks today now1]
    set c1 := ((completedTasks tasks).length == 1) with hc1
    set c2 := decide (3 ≤ calcCurrentStreak tasks today) with hc2
    set c3 := decide (50 ≤ enginePoints tasks) with hc3
    set c4 := decide (10 ≤ (completedTasks tasks).length) with hc4
    set B1 := unlockFirstMatch st.badges "first-task" c1 now1 with hB1
    set B2 := unlockFirstMatch B1 "streak-3" c2 now1 with hB2
    set B3 := unlockFirstMatch B2 "points-50" c3 now1 with hB3
    set B4 := unlockFirstMatch B3 "tasks-10" c4 now1 with hB4
    have s1 : settled B4 "first-task" c1 := by
      rw [hB4, hB3, hB2]
      exact settled_preserved_ne _ _ _ _ _ _ (by decide)
        (settled_preserved_ne _ _ _ _ _ _ (by decide)
          (settled_preserved_ne _ _ _ _ _ _ (by decide)
            (settled_after_unlockFirstMatch _ _ _ _)))
    have s2 : settled B4 "streak-3" c2 := by
      rw [hB4, hB3]
      exact settled_preserved_ne _ _ _ _ _ _ (by decide)
        (settled_preserved_ne _ _ _ _ _ _ (by decide)
          (settled_after_unlockFirstMatch _ _ _ _))
    have s3 : settled B4 "points-50" c3 := by
      rw [hB4]
      exact settled_preserved_ne _ _ _ _ _ _ (by decide)
        (settled_after_unlockFirstMatch _ _ _ _)
    have s4 : settled B4 "tasks-10" c4 :=
      settled_after_unlockFirstMatch _ _ _ _
    rw [unlockFirstMatch_of_settled B4 "first-task" c1 now2 s1]
    rw [unlockFirstMatch_of_settled B4 "streak-3" c2 now2 s2]
    rw [unlockFirstMatch_of_settled B4 "points-50" c3 now2 s3]
    rw [unlockFirstMatch_of_settled B4 "tasks-10" c4 now2 s4]
  calc checkBadgeUnlocks tasks today now2 (checkBadgeUnlocks tasks today now1 st)
      = ⟨(checkBadgeUnlocks tasks today now2 (checkBadgeUnlocks tasks today now1 st)).stats,
         (checkBadgeUnlocks tasks today now2 (checkBadgeUnlocks tasks today now1 st)).badges⟩ := rfl
    _ = ⟨(checkBadgeUnlocks tasks today now1 st).stats,
         (checkBadgeUnlocks tasks today now1 st).badges⟩ := by rw [hstats, hbadges]
    _ = checkBadgeUnlocks tasks today now1 st := rfl

/-- C9 counterexample: deleting the only (completed) task leaves the stored
aggregate untouched — it still reports one completed task while the task
set is empty (a fresh recomputation over the post-mutation task set would
report zero) — so the aggregate does not always reflect the task set as of
the most recent mutation. -/
theorem delete_leaves_stale_stats :
    (mgrDeleteTask staleState "t1").tasks = []
    ∧ (mgrDeleteTask staleState "t1").stats.tasksCompleted = 1
    ∧ (checkBadgeUnlocks (mgrDeleteTask staleState "t1").tasks egToday egNow
        ⟨(mgrDeleteTask staleState "t1").stats,
         (mgrDeleteTask staleState "t1").badges⟩).stats.tasksCompleted = 0 := by
  decide

/-- C9 (amended): the Achievement Engine is re-run only by `toggleTask`
when a task transitions to completed; `addTask`, `editTask`, `deleteTask`
and toggling a task back to pending leave the stored statistics and badges
unchanged, while toggling to completed stores exactly the engine's output
over the post-mutation task set. -/
theorem stats_recomputed_only_on_completion (m : ManagerState)
    (id title newId : String) (pts today now : Int) :
    ((mgrAddTask m newId title pts).stats = m.stats
      ∧ (mgrAddTask m newId title pts).badges = m.badges)
    ∧ ((mgrEditTask m id title now).stats = m.stats
      ∧ (mgrEditTask m id title now).badges = m.badges)
    ∧ ((mgrDeleteTask m id).stats = m.stats
      ∧ (mgrDeleteTask m id).badges = m.badges)
    ∧ (∀ t, m.tasks.find? (fun x => x.id == id) = some t → t.completed = true →
        (mgrToggleTask m id today now).stats = m.stats
        ∧ (mgrToggleTask m id today now).badges = m.badges)
    ∧ (∀ t, m.tasks.find? (fun x => x.id == id) = some t → t.completed = false →
        (mgrToggleTask m id today now).stats
          = (checkBadgeUnlocks (mgrToggleTask m id today now).tasks today now
              ⟨m.stats, m.badges⟩).stats
        ∧ (mgrToggleTask m id today now).badges
          = (checkBadgeUnlocks (mgrToggleTask m id today now).tasks today now
              ⟨m.stats, m.badges⟩).badges) := by
  refine ⟨⟨rfl, rfl⟩, ?_, ⟨rfl, rfl⟩, ?_, ?_⟩
  · unfold mgrEditTask
    rcases h : m.tasks.find? (fun t => t.id == id) with _ | t <;> rw [h] <;>
      exact ⟨rfl, rfl⟩
  · intro t hfind hc
    unfold mgrToggleTask
    rw [hfind]
    dsimp only
    rw [hc]
    exact ⟨rfl, rfl⟩
  · intro t hfind hc
    unfold mgrToggleTask
    rw [hfind]
    dsimp only
    rw [hc]
    exact ⟨rfl, rfl⟩

/-- Witness for the amended C9 at a concrete input: toggling the completed
task back to pending leaves the stored statistics untouched. -/
theorem stats_recomputed_only_on_completion_witness :
    (mgrToggleTask staleState "t1" egToday egNow).stats = staleState.stats
    ∧ (mgrToggleTask staleState "t1" egToday egNow).badges = staleState.badges :=
  (stats_recomputed_only_on_completion staleState "t1" "x" "y" 0 egToday egNow).2.2.2.1
    taskCompletedToday (by decide) (by decide)

/-- `findByIdAndUpdate`: updating the first match of a predicate is
observed by a subsequent lookup, provided the update preserves the
predicate. -/
theorem find?_updateFirstBy {α : Type} (p : α → Bool) (f : α → α)
    (l : List α) (t : α) (h : l.find? p = some t) (hf : p (f t) = true) :
    (updateFirstBy p f l).find? p = some (f t) := by
  induction l with
  | nil => simp at h
  | cons x rest ih =>
    by_cases hx : p x = true
    · rw [List.find?_cons_of_pos _ hx] at h
      have hx' : x = t := by simpa using h
      subst hx'
      unfold updateFirstBy
      rw [if_pos hx, List.find?_cons_of_pos _ hf]
    · rw [List.find?_cons_of_neg _ (by simpa using hx)] at h
      unfold updateFirstBy
      rw [if_neg hx, List.find?_cons_of_neg _ (by simpa using hx)]
      exact ih h

/-- C10: a `PUT /api/tasks/:id` whose body carries only a non-blank title
resets the omitted fields to their defaults: the stored task's `status`
becomes `"pending"` (even if it was `"completed"`) and its `description`
becomes the empty string. -/
theorem put_resets_omitted_fields (id tt : String) (store : List BackTask)
    (now : Int) (t : BackTask)
    (htitle : titleFalsy (some tt) = false)
    (hlen : (jsTrim tt).length ≤ 200)
    (hfind : store.find? (fun x => x.id == id) = some t) :
    (putTask id { title := some tt } store now).1 = ⟨200, true, none⟩
    ∧ (putTask id { title := some tt } store now).2.find? (fun x => x.id == id)
        = some { t with title := jsTrim tt, description := "", status := "pending",
                        updatedAt := now } := by
  have htrim : (jsTrim tt == "") = false := by
    unfold titleFalsy at htitle
    dsimp only at htitle
    rcases h2 : (jsTrim tt == "") with _ | _
    · rfl
    · rw [h2, Bool.or_true] at htitle
      exact htitle
  have hval : taskValidationError
      { t with title := jsTrim tt, description := "", status := "pending",
               updatedAt := now } = none := by
    unfold taskValidationError
    rw [if_neg (by simpa using htrim)]
    rw [if_neg (by simp; omega)]
    rw [if_neg (by simp [String.length])]
    rw [if_neg (by simp [validStatus])]
  have hp :
      (({ t with title := jsTrim tt, description := "", status := "pending", updatedAt := now } : BackTask).id == id) = true := by
    have := List.find?_some hfind
    simpa using this
  unfold putTask
  rw [show titleFalsy ({ title := some tt } : TaskBody).title = false from htitle]
  rw [show statusTruthyInvalid ({ title := some tt } : TaskBody).status = false from rfl]
  simp only [Bool.false_eq_true, if_false]
  rw [hfind]
  dsimp only
  rw [show jsTrim (({ title := some tt } : TaskBody).title.getD "") = jsTrim tt from rfl]
  rw [show descOrEmpty ({ title := some tt } : TaskBody).description = "" from rfl]
  rw [show statusOrPending ({ title := some tt } : TaskBody).status = "pending" from rfl]
  rw [hval]
  exact ⟨rfl, find?_updateFirstBy _ _ store t hfind hp⟩

/-- Witness for C10 at a concrete input: a completed stored task PUT with
only a title becomes pending with an empty description. -/
theorem put_resets_omitted_fields_witness :
    (putTask "b1" { title := some "New title" }
        [⟨"b1", "Old", "d", "completed", 0, 0⟩] 7).2.find? (fun x => x.id == "b1")
      = some ⟨"b1", "New title", "", "pending", 0, 7⟩ := by
  have h := put_resets_omitted_fields "b1" "New title"
    [⟨"b1", "Old", "d", "completed", 0, 0⟩] 7 ⟨"b1", "Old", "d", "completed", 0, 0⟩
    (by decide) (by decide) (by decide)
  rw [h.2]
  decide

/-- A task document that passes schema validation has an enum status. -/
theorem validStatus_of_valid (t : BackTask) (h : taskValidationError t = none) :
    validStatus t.status = true := by
  unfold taskValidationError at h
  split_ifs at h with h1 h2 h3 h4
  simpa using h4

/-- C6 counterexample: `POST /api/tasks` with a valid title but the
non-enum status `"done"` is not rejected with 400 — the status reaches the
store, whose schema validation failure surfaces as a 500 response. -/
theorem post_invalid_status_counterexample :
    validStatus "done" = false
    ∧ (postTask { title := some "Test", status := some "done" } [] "id1" 0).1.httpStatus = 500
    ∧ (postTask { title := some "Test", status := some "done" } [] "id1" 0).1.httpStatus ≠ 400
    ∧ (postTask { title := some "Test", status := some "done" } [] "id1" 0).1.success = false := by
  decide

/-- C6 (amended): a request body whose `status` lies outside
`{pending, completed}` is rejected with 400 by `PATCH /api/tasks/:id`
always, and by `PUT /api/tasks/:id` whenever the status is truthy
(non-empty); `POST /api/tasks` performs no status validation of its own —
with a usable title the invalid status propagates to the store and the
request fails with 500, `success = false` and an error message in each
case. -/
theorem invalid_status_rejection (id newId s : String) (body : TaskBody)
    (store : List BackTask) (now : Int)
    (hs : body.status = some s) (hinv : validStatus s = false) :
    ((patchTask id body store now).1.httpStatus = 400
      ∧ (patchTask id body store now).1.success = false
      ∧ (patchTask id body store now).1.error.isSome = true)
    ∧ (s ≠ "" →
        (putTask id body store now).1.httpStatus = 400
        ∧ (putTask id body store now).1.success = false
        ∧ (putTask id body store now).1.error.isSome = true)
    ∧ (s ≠ "" → titleFalsy body.title = false →
        (postTask body store newId now).1.httpStatus = 500
        ∧ (postTask body store newId now).1.success = false
        ∧ (postTask body store newId now).1.error.isSome = true) := by
  refine ⟨?_, ?_, ?_⟩
  · unfold patchTask
    rcases ht : body.title with _ | tt
    · dsimp only
      unfold patchTask.patchTaskApply
      rw [hs]
      dsimp only
      rw [hinv]
      exact ⟨rfl, rfl, rfl⟩
    · dsimp only
      by_cases htr : (jsTrim tt == "") = true
      · rw [if_pos htr]
        exact ⟨rfl, rfl, rfl⟩
      · rw [if_neg htr]
        unfold patchTask.patchTaskApply
        rw [hs]
        dsimp only
        rw [hinv]
        exact ⟨rfl, rfl, rfl⟩
  · intro hne
    unfold putTask
    by_cases htf : titleFalsy body.title = true
    · rw [if_pos htf]
      exact ⟨rfl, rfl, rfl⟩
    · rw [if_neg htf]
      have hsti : statusTruthyInvalid body.status = true := by
        rw [hs]
        unfold statusTruthyInvalid
        dsimp only
        rw [hinv]
        simp [hne]
      rw [if_pos hsti]
      exact ⟨rfl, rfl, rfl⟩
  · intro hne htf
    unfold postTask
    rw [htf]
    rw [if_neg (show ¬(false = true) by simp)]
    have hstat : statusOrPending body.status = s := by
      rw [hs]
      unfold statusOrPending
      dsimp only
      simp [hne]
    set doc := ({ id := newId, title := jsTrim (body.title.getD ""), description := descOrEmpty body.description, status := statusOrPending body.status, createdAt := now, updatedAt := now } : BackTask) with hdoc
    rcases hv : taskValidationError doc with _ | msg
    · exfalso
      have hvs := validStatus_of_valid doc hv
      have hvs2 : validStatus (statusOrPending body.status) = true := hvs
      rw [hstat, hinv] at hvs2
      exact absurd hvs2 (by simp)
    · dsimp only
      rw [hv]
      exact ⟨rfl, rfl, rfl⟩

/-- Witness for the amended C6 at concrete inputs. -/
theorem invalid_status_rejection_witness :
    (patchTask "x" { status := some "done" } [] 0).1.httpStatus = 400
    ∧ (putTask "x" { title := some "T", status := some "done" } [] 0).1.httpStatus = 400
    ∧ (postTask { title := some "T", status := some "done" } [] "n" 0).1.httpStatus = 500 := by
  have h1 := invalid_status_rejection "x" "n" "done" { status := some "done" } [] 0
    rfl (by decide)
  have h2 := invalid_status_rejection "x" "n" "done"
    { title := some "T", status := some "done" } [] 0 rfl (by decide)
  exact ⟨h1.1.1, (h2.2.1 (by decide)).1, (h2.2.2 (by decide) (by decide)).1⟩

end TaskApp
